import Mathlib

/-!
Shallow embedding of bin/home_usage.py (storage-utilities), the disk-usage
auditing script.  The embedding models the data the script manipulates — the
Workday directory entry, the storage.overage Mongo collection, per-user usage
records — and the functions notify_allowed, generate_email, call_responder and
the per-user body of the process_usage loop.  External effects (HTTP status
codes, email-transport success, ledger-write success, the wall clock) are
passed in as explicit parameters; timestamps are integers counting seconds.
-/

namespace HomeUsage

/-- Scalar JSON values that can appear in the active field of the Workday
config record.  Python compares them with string equality against the literal
Y, so a boolean or a differently-spelled string is simply unequal. -/
inductive JVal where
  | str : String → JVal
  | boolean : Bool → JVal
deriving DecidableEq, Repr

/-- The config sub-record of a Workday directory entry, with the fields the
script reads: active, first and email. -/
structure ConfigRecord where
  active : JVal
  first : String
  email : String
deriving DecidableEq, Repr

/-- A Workday directory entry as returned by the config service.  The config
field is none when the JSON object has no config key (the script checks
membership with: if not work or config not in work). -/
structure WorkdayRecord where
  config : Option ConfigRecord
deriving DecidableEq, Repr

/-- DAY = 3600 * 24, the cooldown length in seconds (home_usage.py line 26). -/
def DAY : Int := 3600 * 24

/-- One document of the storage.overage collection: the payload written by
generate_email is a userId, a human-readable size string, and the notified
timestamp (datetime.now() modelled as seconds). -/
structure OverageRecord where
  userId : String
  size : String
  notified : Int
deriving DecidableEq, Repr

/-- The overage collection, as the ordered list of its documents. -/
abbrev Ledger := List OverageRecord

/-- Mongo find_one with filter {'userId': userid} : the first document whose
userId matches, or none. -/
def findOne : Ledger → String → Option OverageRecord
  | [], _ => none
  | r :: rest, userid => if r.userId = userid then some r else findOne rest userid

/-- Mongo update_one with filter {'userId': userid}, a full $set payload and
upsert=True: replace the first matching document with the payload, or append
the payload when no document matches. -/
def updateOne : Ledger → String → OverageRecord → Ledger
  | [], _, payload => [payload]
  | r :: rest, userid, payload =>
    if r.userId = userid then payload :: rest else r :: updateOne rest userid payload

/-- Python timedelta days: (datetime.now() - result['notified']).days is the
floor of the elapsed seconds divided by 86400 (timedelta normalises so that
0 <= seconds < 86400, letting days go negative), hence Int.fdiv. -/
def deltaDays (now notified : Int) : Int := (now - notified).fdiv DAY

/-- Shallow embedding of notify_allowed (home_usage.py lines 128-153).  The
collection state is threaded through so that the ledger footprint of the call
is part of the model; the function only ever performs find_one, so it returns
the collection it was given.  now stands for datetime.now() at the call.
Returns False when work is falsy or has no config key, False when
work['config']['active'] != 'Y', True when find_one returns no document, and
otherwise bool(delta.days >= 1). -/
def notify_allowed (userid : String) (work : Option WorkdayRecord)
    (coll : Ledger) (now : Int) : Bool × Ledger :=
  match work with
  | none => (false, coll)
  | some w =>
    match w.config with
    | none => (false, coll)
    | some cfg =>
      if cfg.active ≠ JVal.str "Y" then (false, coll)
      else
        match findOne coll userid with
        | none => (true, coll)
        | some result => (decide (1 ≤ deltaDays now result.notified), coll)

/-- Outcome of generate_email: the function either returns to its caller with
the resulting collection state, or the process exits via terminate_program. -/
inductive EmailResult where
  | done : Ledger → EmailResult
  | fatal : EmailResult
deriving DecidableEq, Repr

/-- Shallow embedding of generate_email (home_usage.py lines 97-125).  emailOk
is whether JRC.send_email returns without raising; ledgerWriteOk is whether
coll.update_one returns without raising.  A transport error is logged and the
function returns with the collection untouched (the return on line 116 comes
before the upsert); a successful send is followed by the upsert of
{userId, size: consumed, notified: now}, and an upsert error reaches
terminate_program. -/
def generate_email (userid : String) (consumed : String)
    (emailOk ledgerWriteOk : Bool) (coll : Ledger) (now : Int) : EmailResult :=
  if !emailOk then .done coll
  else if !ledgerWriteOk then .fatal
  else .done (updateOne coll userid ⟨userid, consumed, now⟩)

/-- Outcome of call_responder: a JSON body (None for a 404), or process exit
via terminate_program.  The function has no outcome in which an exception
propagates to its caller: requests.get failures (RequestException, of which
requests.HTTPError is a subclass) are caught on line 84 and terminate the
program, and no code path calls raise_for_status. -/
inductive CallResult where
  | success : Option WorkdayRecord → CallResult
  | fatal : CallResult
deriving DecidableEq, Repr

/-- Shallow embedding of call_responder (home_usage.py lines 71-93) for the
Workday lookup.  netOk is whether requests.get returns a response at all;
status is the HTTP status code and body the parsed JSON of a 200 response.
Status 200 returns the body, 404 returns None, 400 logs the content and then
falls through to terminate_program, and every other status terminates. -/
def call_responder (netOk : Bool) (status : Nat) (body : Option WorkdayRecord) :
    CallResult :=
  if !netOk then .fatal
  else if status = 200 then .success body
  else if status = 404 then .success none
  else .fatal

/-- One element of the Starfish usage response: fn is the user id, size the
raw byte count rec_aggrs size, size_hum the human-readable size string. -/
structure UsageRecord where
  fn : String
  size : Nat
  size_hum : String
deriving DecidableEq, Repr

/-- What the loop body prints for one user: the green under-threshold line,
the yellow flagged-but-suppressed line, or the red flagged-and-notified
line. -/
inductive UserReport where
  | ok : UserReport
  | suppressed : UserReport
  | warned : UserReport
deriving DecidableEq, Repr

/-- Outcome of one iteration of the process_usage loop: continue to the next
user with a report and the resulting collection state, or process exit. -/
inductive StepResult where
  | step : UserReport → Ledger → StepResult
  | aborted : StepResult
deriving DecidableEq, Repr

/-- Ledger state carried by a step outcome, none when the run aborted. -/
def stepLedger : StepResult → Option Ledger
  | .step _ coll => some coll
  | .aborted => none

/-- The threshold comparison on home_usage.py line 165:
usr['rec_aggrs']['size'] > ARG.LIMIT * (1024 ** 4).  Python compares the
integer byte count with the float product exactly, and multiplying a double
by the power of two 1024 ** 4 is exact, so the comparison is modelled with
exact rational arithmetic. -/
def exceeds_threshold (bytes_used : Nat) (limit_tib : ℚ) : Bool :=
  decide ((bytes_used : ℚ) > limit_tib * 1024 ^ 4)

/-- Shallow embedding of one iteration of the process_usage loop
(home_usage.py lines 164-178) for a single usage record.  writeMode is
ARG.WRITE; netOk, status and body describe the Workday lookup for this user;
emailOk and ledgerWriteOk feed generate_email.  The except requests.HTTPError
handler on line 168 has no corresponding branch here because call_responder
never raises HTTPError (see CallResult); the aborted branches inside the
writeMode arm model the uncaught KeyError that data['config'] on line 176
would raise, and are unreachable because notify_allowed returning true already
requires a config key. -/
def process_user (limit : ℚ) (writeMode : Bool) (usr : UsageRecord)
    (netOk : Bool) (status : Nat) (body : Option WorkdayRecord)
    (emailOk ledgerWriteOk : Bool) (coll : Ledger) (now : Int) : StepResult :=
  if exceeds_threshold usr.size limit then
    match call_responder netOk status body with
    | .fatal => .aborted
    | .success data =>
      match notify_allowed usr.fn data coll now with
      | (false, collA) => .step .suppressed collA
      | (true, collA) =>
        if writeMode then
          match data with
          | none => .aborted
          | some w =>
            match w.config with
            | none => .aborted
            | some _ =>
              match generate_email usr.fn usr.size_hum emailOk ledgerWriteOk collA now with
              | .done collB => .step .warned collB
              | .fatal => .aborted
        else .step .warned collA
  else .step .ok coll

lemma notify_allowed_coll_eq (userid : String) (work : Option WorkdayRecord)
    (coll : Ledger) (now : Int) : (notify_allowed userid work coll now).2 = coll := by
  rcases work with _ | ⟨_ | cfg⟩
  · rfl
  · rfl
  · by_cases ha : cfg.active = JVal.str "Y"
    · cases h : findOne coll userid <;> simp [notify_allowed, ha, h]
    · simp [notify_allowed, ha]

lemma notify_allowed_true_shape (userid : String) (work : Option WorkdayRecord)
    (coll : Ledger) (now : Int)
    (h : (notify_allowed userid work coll now).1 = true) :
    ∃ w cfg, work = some w ∧ w.config = some cfg ∧ cfg.active = JVal.str "Y" := by
  rcases work with _ | ⟨_ | cfg⟩
  · simp [notify_allowed] at h
  · simp [notify_allowed] at h
  · refine ⟨_, cfg, rfl, rfl, ?_⟩
    by_cases ha : cfg.active = JVal.str "Y"
    · exact ha
    · simp [notify_allowed, ha] at h

lemma notify_allowed_true_elapsed (userid : String) (work : Option WorkdayRecord)
    (coll : Ledger) (now : Int) (r : OverageRecord)
    (h : (notify_allowed userid work coll now).1 = true)
    (hfind : findOne coll userid = some r) :
    1 ≤ deltaDays now r.notified := by
  obtain ⟨w, cfg, hw, hc, ha⟩ := notify_allowed_true_shape userid work coll now h
  subst hw
  rcases w with ⟨wc⟩
  simp only at hc
  subst hc
  simpa [notify_allowed, ha, hfind] using h

lemma one_le_deltaDays_iff (now t : Int) : 1 ≤ deltaDays now t ↔ DAY ≤ now - t := by
  unfold deltaDays DAY
  rw [Int.fdiv_eq_ediv _ (by norm_num)]
  omega

lemma findOne_updateOne_self (coll : Ledger) (u : String) (p : OverageRecord)
    (hp : p.userId = u) : findOne (updateOne coll u p) u = some p := by
  induction coll with
  | nil => simp [updateOne, findOne, hp]
  | cons r rest ih =>
    unfold updateOne
    by_cases h : r.userId = u
    · simp [h, findOne, hp]
    · simp [h, findOne, ih]

lemma findOne_updateOne_ne (coll : Ledger) (u v : String) (p : OverageRecord)
    (hne : u ≠ v) (hp : p.userId = v) :
    findOne (updateOne coll v p) u = findOne coll u := by
  induction coll with
  | nil => simp [updateOne, findOne, hp, Ne.symm hne]
  | cons r rest ih =>
    unfold updateOne
    by_cases h : r.userId = v
    · simp [h, findOne, hp, Ne.symm hne]
    · simp [h, findOne, ih]

/-- Concrete active config record used by the concrete-instance theorems. -/
def demoCfg : ConfigRecord := ⟨JVal.str "Y", "Alice", "alice@example.org"⟩

/-- Concrete Workday entry holding demoCfg. -/
def demoWork : WorkdayRecord := ⟨some demoCfg⟩

/-- Concrete overage document: alice was notified at second 1000. -/
def demoRec : OverageRecord := ⟨"alice", "1.1 TiB", 1000⟩

/-- Concrete one-document ledger holding demoRec. -/
def demoColl : Ledger := [demoRec]

/-- C3: the threshold filter flags a user iff bytes_used strictly exceeds
limit * 2^40 bytes: every count at or below the product is unflagged (the
exact boundary included) and every count above it is flagged. -/
theorem exceeds_threshold_strict (bytes_used : Nat) (limit : ℚ) :
    (exceeds_threshold bytes_used limit = true ↔ (bytes_used : ℚ) > limit * 2 ^ 40) ∧
    (exceeds_threshold bytes_used limit = false ↔ (bytes_used : ℚ) ≤ limit * 2 ^ 40) ∧
    ((bytes_used : ℚ) = limit * 2 ^ 40 → exceeds_threshold bytes_used limit = false) := by
  have h40 : (1024 : ℚ) ^ 4 = 2 ^ 40 := by norm_num
  unfold exceeds_threshold
  rw [h40]
  refine ⟨by simp, by simp [not_lt], fun he => by simp [he]⟩

/-- Witness for C3 at the boundary: a count of exactly 1 TiB against a 1 TiB
limit is not flagged, one byte more is. -/
theorem exceeds_threshold_strict_witness :
    exceeds_threshold (2 ^ 40) 1 = false ∧ exceeds_threshold (2 ^ 40 + 1) 1 = true :=
  ⟨(exceeds_threshold_strict (2 ^ 40) 1).2.2 (by norm_num),
   (exceeds_threshold_strict (2 ^ 40 + 1) 1).1.mpr (by norm_num)⟩

/-- C4: notify_allowed returns false whenever the directory entry is absent,
lacks the config key, or carries an active flag other than the string Y,
whatever the ledger contains. -/
theorem notify_allowed_inactive_false (userid : String) (coll : Ledger) (now : Int) :
    (notify_allowed userid none coll now).1 = false ∧
    (notify_allowed userid (some ⟨none⟩) coll now).1 = false ∧
    ∀ cfg : ConfigRecord, cfg.active ≠ JVal.str "Y" →
      (notify_allowed userid (some ⟨some cfg⟩) coll now).1 = false := by
  refine ⟨rfl, rfl, fun cfg ha => ?_⟩
  simp [notify_allowed, ha]

/-- Witness for C4: dave with no entry, an entry without config, and an
entry whose active flag is the boolean true, against a non-empty ledger. -/
theorem notify_allowed_inactive_false_witness :
    (JVal.boolean true ≠ JVal.str "Y") ∧
    (notify_allowed "dave" none demoColl 0).1 = false ∧
    (notify_allowed "dave" (some ⟨none⟩) demoColl 0).1 = false ∧
    (notify_allowed "dave"
      (some ⟨some ⟨JVal.boolean true, "Dave", "dave@example.org"⟩⟩) demoColl 0).1 = false := by
  have h := notify_allowed_inactive_false "dave" demoColl 0
  exact ⟨by decide, h.1, h.2.1,
    h.2.2 ⟨JVal.boolean true, "Dave", "dave@example.org"⟩ (by decide)⟩

/-- C5: a user with an active directory entry and no overage document in the
ledger is always eligible: notify_allowed returns true. -/
theorem notify_allowed_never_notified (userid : String) (w : WorkdayRecord)
    (cfg : ConfigRecord) (coll : Ledger) (now : Int)
    (hcfg : w.config = some cfg) (hact : cfg.active = JVal.str "Y")
    (hfind : findOne coll userid = none) :
    (notify_allowed userid (some w) coll now).1 = true := by
  simp [notify_allowed, hcfg, hact, hfind]

/-- Witness for C5: bob has an active entry and the empty ledger holds no
document for him. -/
theorem notify_allowed_never_notified_witness :
    demoWork.config = some demoCfg ∧ demoCfg.active = JVal.str "Y" ∧
    findOne [] "bob" = none ∧
    (notify_allowed "bob" (some demoWork) [] 0).1 = true :=
  ⟨rfl, rfl, rfl, notify_allowed_never_notified "bob" demoWork demoCfg [] 0 rfl rfl rfl⟩

/-- C1: for an active user with an overage document notified at time T,
notify_allowed is false at every now in [T, T + 24h) and true at or after
T + 24h; in general the answer is exactly the test
floor((now - T) / 86400) >= 1, so the exact 24-hour boundary is eligible. -/
theorem notify_allowed_cooldown (userid : String) (w : WorkdayRecord)
    (cfg : ConfigRecord) (coll : Ledger) (r : OverageRecord) (now : Int)
    (hcfg : w.config = some cfg) (hact : cfg.active = JVal.str "Y")
    (hfind : findOne coll userid = some r) :
    ((r.notified ≤ now ∧ now < r.notified + DAY) →
      (notify_allowed userid (some w) coll now).1 = false) ∧
    (r.notified + DAY ≤ now → (notify_allowed userid (some w) coll now).1 = true) ∧
    (notify_allowed userid (some w) coll now).1 =
      decide (1 ≤ (now - r.notified).fdiv DAY) := by
  have hval : (notify_allowed userid (some w) coll now).1 =
      decide (1 ≤ deltaDays now r.notified) := by
    simp [notify_allowed, hcfg, hact, hfind]
  refine ⟨?_, ?_, hval⟩
  · rintro ⟨h1, h2⟩
    rw [hval, decide_eq_false_iff_not, one_le_deltaDays_iff]
    simp only [DAY] at h2 ⊢
    omega
  · intro h
    rw [hval, decide_eq_true_eq, one_le_deltaDays_iff]
    simp only [DAY] at h ⊢
    omega

/-- Witness for C1: alice was notified at second 1000 and the clock reads
exactly 1000 + 86400, the inclusive boundary, so she is eligible. -/
theorem notify_allowed_cooldown_witness :
    demoWork.config = some demoCfg ∧ demoCfg.active = JVal.str "Y" ∧
    findOne demoColl "alice" = some demoRec ∧
    demoRec.notified + DAY ≤ 87400 ∧
    (notify_allowed "alice" (some demoWork) demoColl 87400).1 = true := by
  have h := notify_allowed_cooldown "alice" demoWork demoCfg demoColl demoRec 87400 rfl rfl rfl
  exact ⟨rfl, rfl, rfl, by decide, h.2.1 (by decide)⟩

/-- C9: notify_allowed is read-only with respect to the overage collection:
for every input the ledger state after the call is the one it was given. -/
theorem notify_allowed_read_only (userid : String) (work : Option WorkdayRecord)
    (coll : Ledger) (now : Int) : (notify_allowed userid work coll now).2 = coll :=
  notify_allowed_coll_eq userid work coll now

/-- C2, code behaviour at the failing input: a Workday lookup answering
HTTP 404 makes call_responder return None rather than raise, so for a user
over the threshold the loop body prints the yellow suppressed line and
continues with the ledger unchanged — the run does not abort, contradicting
the fatal-on-not-found intent of the dead except requests.HTTPError handler
on home_usage.py line 168. -/
theorem workday_not_found_skips_user :
    call_responder true 404 none = CallResult.success none ∧
    process_user (1 / 2) true ⟨"ghost", 2 ^ 40, "1.0 TiB"⟩ true 404 none true true [] 0 =
      StepResult.step UserReport.suppressed [] := by
  refine ⟨rfl, ?_⟩
  have hex : exceeds_threshold (2 ^ 40) (1 / 2 : ℚ) = true := by
    unfold exceeds_threshold
    rw [decide_eq_true_eq]
    norm_num
  unfold process_user
  dsimp only
  rw [hex, if_pos rfl]
  rfl

lemma call_responder_200 (body : Option WorkdayRecord) :
    call_responder true 200 body = CallResult.success body := rfl

/-- C10: notify_allowed answers true only when the entry has a config key
whose active field is exactly the string Y; the boolean true, the lowercase
y and the string Yes all yield false, and a missing config key answers
exactly as an absent entry does. -/
theorem notify_allowed_requires_exact_Y (userid : String) (work : WorkdayRecord)
    (coll : Ledger) (now : Int) (first email : String) :
    ((notify_allowed userid (some work) coll now).1 = true →
      ∃ cfg, work.config = some cfg ∧ cfg.active = JVal.str "Y") ∧
    (notify_allowed userid
      (some ⟨some ⟨JVal.boolean true, first, email⟩⟩) coll now).1 = false ∧
    (notify_allowed userid
      (some ⟨some ⟨JVal.str "y", first, email⟩⟩) coll now).1 = false ∧
    (notify_allowed userid
      (some ⟨some ⟨JVal.str "Yes", first, email⟩⟩) coll now).1 = false ∧
    (notify_allowed userid (some ⟨none⟩) coll now).1 =
      (notify_allowed userid none coll now).1 := by
  refine ⟨fun h => ?_, by simp [notify_allowed], by simp [notify_allowed],
    by simp [notify_allowed], rfl⟩
  obtain ⟨w, cfg, hw, hc, ha⟩ := notify_allowed_true_shape userid (some work) coll now h
  refine ⟨cfg, ?_, ha⟩
  injection hw with h2
  rw [h2]
  exact hc

/-- Witness for C10: an entry whose active field is the string Y does let
notify_allowed answer true, and the config key is then forced to exist. -/
theorem notify_allowed_requires_exact_Y_witness :
    (notify_allowed "alice" (some demoWork) [] 0).1 = true ∧
    ∃ cfg, demoWork.config = some cfg ∧ cfg.active = JVal.str "Y" :=
  ⟨rfl, (notify_allowed_requires_exact_Y "alice" demoWork [] 0 "x" "y").1 rfl⟩

/-- C6: when the email transport raises, generate_email logs and returns with
the collection untouched, and the loop body in write mode with a successful
Workday lookup still ends in a step — never an abort — whose ledger equals
the incoming one, so the user stays eligible on the next run. -/
theorem email_failure_keeps_ledger (userid consumed : String) (writeOk : Bool)
    (coll : Ledger) (now : Int) (limit : ℚ) (usr : UsageRecord)
    (body : Option WorkdayRecord) :
    generate_email userid consumed false writeOk coll now = EmailResult.done coll ∧
    stepLedger (process_user limit true usr true 200 body false writeOk coll now) =
      some coll := by
  refine ⟨rfl, ?_⟩
  unfold process_user
  cases hex : exceeds_threshold usr.size limit with
  | false => simp [stepLedger]
  | true =>
    rw [if_pos rfl, call_responder_200]
    dsimp only
    rcases hna : notify_allowed usr.fn body coll now with ⟨b, collA⟩
    have hA : collA = coll := by
      have h0 := notify_allowed_coll_eq usr.fn body coll now
      rw [hna] at h0
      exact h0
    cases b with
    | false => simp [stepLedger, hA]
    | true =>
      have hb : (notify_allowed usr.fn body coll now).1 = true := by rw [hna]
      obtain ⟨w, cfg, hw, hc, ha⟩ := notify_allowed_true_shape usr.fn body coll now hb
      subst hw
      simp [stepLedger, generate_email, hA, hc]

/-- C7: a ledger upsert failure after a successful send reaches
terminate_program: generate_email is fatal and the loop body aborts the run
instead of continuing with the rest of the batch. -/
theorem ledger_write_failure_fatal (userid consumed : String) (coll : Ledger)
    (now : Int) (limit : ℚ) (usr : UsageRecord) (body : Option WorkdayRecord)
    (hex : exceeds_threshold usr.size limit = true)
    (hel : (notify_allowed usr.fn body coll now).1 = true) :
    generate_email userid consumed true false coll now = EmailResult.fatal ∧
    process_user limit true usr true 200 body true false coll now =
      StepResult.aborted := by
  refine ⟨rfl, ?_⟩
  obtain ⟨w, cfg, hw, hc, ha⟩ := notify_allowed_true_shape usr.fn body coll now hel
  subst hw
  rcases hna : notify_allowed usr.fn (some w) coll now with ⟨b, collA⟩
  have hb : b = true := by rw [hna] at hel; exact hel
  subst hb
  unfold process_user
  rw [hex, if_pos rfl, call_responder_200]
  dsimp only
  rw [hna]
  dsimp only
  rw [if_pos rfl, hc]
  rfl

/-- Witness for C7: alice is over a half-TiB limit with an active entry and
an empty ledger, the send succeeds and the upsert raises: the run aborts. -/
theorem ledger_write_failure_fatal_witness :
    exceeds_threshold (2 ^ 40) (1 / 2 : ℚ) = true ∧
    (notify_allowed "alice" (some demoWork) ([] : Ledger) 0).1 = true ∧
    process_user (1 / 2) true ⟨"alice", 2 ^ 40, "1.0 TiB"⟩ true 200 (some demoWork)
      true false [] 0 = StepResult.aborted := by
  have hex : exceeds_threshold (2 ^ 40) (1 / 2 : ℚ) = true := by
    unfold exceeds_threshold
    rw [decide_eq_true_eq]
    norm_num
  have h := ledger_write_failure_fatal "u" "c" [] 0 (1 / 2)
    ⟨"alice", 2 ^ 40, "1.0 TiB"⟩ (some demoWork) hex rfl
  exact ⟨hex, rfl, h.2⟩

lemma generate_email_email_failed (userid consumed : String) (writeOk : Bool)
    (coll : Ledger) (now : Int) :
    generate_email userid consumed false writeOk coll now = EmailResult.done coll := rfl

lemma generate_email_write_failed (userid consumed : String) (coll : Ledger)
    (now : Int) :
    generate_email userid consumed true false coll now = EmailResult.fatal := rfl

lemma generate_email_success (userid consumed : String) (coll : Ledger) (now : Int) :
    generate_email userid consumed true true coll now =
      EmailResult.done (updateOne coll userid ⟨userid, consumed, now⟩) := rfl

/-- C8: across one loop iteration every overage document is monotone in its
notified timestamp: a continuing step either leaves the document of a user
exactly as it was or replaces it with one stamped with the current time,
never an earlier one, and a document never disappears from the ledger. -/
theorem overage_notified_monotone (limit : ℚ) (writeMode : Bool)
    (usr : UsageRecord) (netOk : Bool) (status : Nat)
    (body : Option WorkdayRecord) (emailOk ledgerWriteOk : Bool)
    (coll : Ledger) (now : Int) (u : String) (r : OverageRecord)
    (rep : UserReport) (collZ : Ledger)
    (hfind : findOne coll u = some r)
    (hstep : process_user limit writeMode usr netOk status body emailOk
        ledgerWriteOk coll now = StepResult.step rep collZ) :
    ∃ rz, findOne collZ u = some rz ∧ r.notified ≤ rz.notified ∧
      (rz = r ∨ rz.notified = now) := by
  unfold process_user at hstep
  cases hex : exceeds_threshold usr.size limit with
  | false =>
    rw [hex, if_neg Bool.false_ne_true] at hstep
    injection hstep with h1 h2
    subst h2
    exact ⟨r, hfind, le_refl _, Or.inl rfl⟩
  | true =>
    rw [hex, if_pos rfl] at hstep
    cases hcr : call_responder netOk status body with
    | fatal => rw [hcr] at hstep; simp at hstep
    | success data =>
      rw [hcr] at hstep
      dsimp only at hstep
      rcases hna : notify_allowed usr.fn data coll now with ⟨b, collA⟩
      have hA : collA = coll := by
        have h0 := notify_allowed_coll_eq usr.fn data coll now
        rw [hna] at h0
        exact h0
      rw [hA] at hna
      cases b with
      | false =>
        rw [hna] at hstep
        dsimp only at hstep
        injection hstep with h1 h2
        subst h2
        exact ⟨r, hfind, le_refl _, Or.inl rfl⟩
      | true =>
        have hb : (notify_allowed usr.fn data coll now).1 = true := by rw [hna]
        obtain ⟨w, cfg, hw, hc, ha⟩ := notify_allowed_true_shape usr.fn data coll now hb
        subst hw
        rw [hna] at hstep
        dsimp only at hstep
        cases writeMode with
        | false =>
          rw [if_neg Bool.false_ne_true] at hstep
          injection hstep with h1 h2
          subst h2
          exact ⟨r, hfind, le_refl _, Or.inl rfl⟩
        | true =>
          rw [if_pos rfl, hc] at hstep
          dsimp only at hstep
          cases emailOk with
          | false =>
            rw [generate_email_email_failed] at hstep
            dsimp only at hstep
            injection hstep with h1 h2
            subst h2
            exact ⟨r, hfind, le_refl _, Or.inl rfl⟩
          | true =>
            cases ledgerWriteOk with
            | false =>
              rw [generate_email_write_failed] at hstep
              simp at hstep
            | true =>
              rw [generate_email_success] at hstep
              dsimp only at hstep
              injection hstep with h1 h2
              subst h2
              by_cases hu : u = usr.fn
              · subst hu
                refine ⟨⟨usr.fn, usr.size_hum, now⟩,
                  findOne_updateOne_self coll usr.fn ⟨usr.fn, usr.size_hum, now⟩ rfl,
                  ?_, Or.inr rfl⟩
                have he := notify_allowed_true_elapsed usr.fn (some w) coll now r hb hfind
                have hd := (one_le_deltaDays_iff now r.notified).mp he
                simp only [DAY] at hd
                show r.notified ≤ now
                omega
              · exact ⟨r, by
                  rw [findOne_updateOne_ne coll u usr.fn ⟨usr.fn, usr.size_hum, now⟩ hu rfl]
                  exact hfind, le_refl _, Or.inl rfl⟩

/-- Witness for C8: alice was notified at second 1000 and everything on the
happy path succeeds at second 100000: her document is replaced by one stamped
100000, which is not below 1000. -/
theorem overage_notified_monotone_witness :
    findOne demoColl "alice" = some demoRec ∧
    process_user (1 / 2) true ⟨"alice", 2 ^ 40, "1.5 TiB"⟩ true 200 (some demoWork)
      true true demoColl 100000 =
      StepResult.step UserReport.warned [⟨"alice", "1.5 TiB", 100000⟩] ∧
    ∃ rz, findOne [⟨"alice", "1.5 TiB", 100000⟩] "alice" = some rz ∧
      demoRec.notified ≤ rz.notified ∧ (rz = demoRec ∨ rz.notified = 100000) := by
  have hstep : process_user (1 / 2) true ⟨"alice", 2 ^ 40, "1.5 TiB"⟩ true 200
      (some demoWork) true true demoColl 100000 =
      StepResult.step UserReport.warned [⟨"alice", "1.5 TiB", 100000⟩] := by
    have hex : exceeds_threshold (2 ^ 40) (1 / 2 : ℚ) = true := by
      unfold exceeds_threshold
      rw [decide_eq_true_eq]
      norm_num
    unfold process_user
    dsimp only
    rw [hex, if_pos rfl]
    rfl
  exact ⟨rfl, hstep,
    overage_notified_monotone (1 / 2) true ⟨"alice", 2 ^ 40, "1.5 TiB"⟩ true 200
      (some demoWork) true true demoColl 100000 "alice" demoRec UserReport.warned
      [⟨"alice", "1.5 TiB", 100000⟩] rfl hstep⟩

end HomeUsage
